import Mathlib

/-
  Verification of the PebbleVault subsystem of Horizon-Community-Edition.

  Part 1 embeds the CGO shim (src/PebbleVault/go/main.go and its duplicate
  src/unnamed/part_002) over the buntdb key/value store.  The shim's exported
  operations are CreateDB/CloseDB, CreateSpatialIndex, CreateGalaxy and
  GetKNearestGalaxys.  buntdb itself is a third-party dependency (go.mod:
  github.com/tidwall/buntdb); the parts of its documented contract the shim
  relies on (Tx.Set inserts or replaces the single item stored at a key,
  DB.Update/DB.View fail with ErrDatabaseClosed on a closed handle without
  running the closure, Tx.Nearby on a missing index returns ErrNotFound
  without invoking the iterator) are embedded explicitly below.

  Part 2 models, from the design spec, the vault components that are not
  present under src/ (the versioned Record Store with read/update/patch/
  remove, the Transaction Coordinator, and the Persistence Adapter with
  persist/evict): the repository contains only the shim, so those contracts
  are modelled from the spec's words and verified against that model.
-/

namespace PebbleVault

/-- Items of a buntdb database: association list from key to value, one
item per key (buntdb stores a single value per key). -/
abbrev Items := List (String × String)

/-- buntdb Tx.Set: insert the item, or replace the value of the single
existing item with the same key. -/
def setItem : Items → String → String → Items
  | [], k, v => [(k, v)]
  | (k0, v0) :: rest, k, v =>
    if k0 = k then (k, v) :: rest else (k0, v0) :: setItem rest k v

/-- buntdb Tx.Get: value stored at a key, if any. -/
def getItem : Items → String → Option String
  | [], _ => none
  | (k0, v0) :: rest, k => if k0 = k then some v0 else getItem rest k

/-- Name lookup among the created spatial indexes: the pattern registered
under an index name, if any. -/
def lookupIdx : List (String × String) → String → Option String
  | [], _ => none
  | (n0, p0) :: rest, n => if n0 = n then some p0 else lookupIdx rest n

/-- Errors of the embedded buntdb operations that the shim can encounter. -/
inductive DbErr
  | databaseClosed
  | notFound
deriving DecidableEq

/-- State of one buntdb handle: whether it has been closed, its items, and
the spatial indexes created so far (name paired with key pattern). -/
structure DbState where
  closed : Bool
  items : Items
  idxs : List (String × String)
deriving DecidableEq

/-- buntdb DB.Update with a closure that always returns nil (as the shim's
closures do): on a closed handle it fails with ErrDatabaseClosed without
running the closure; otherwise the writes of the closure are committed. -/
def dbUpdate (db : DbState) (f : Items → Items) : Except DbErr DbState :=
  if db.closed then .error .databaseClosed
  else .ok { db with items := f db.items }

/-- CreateSpatialIndex from the shim: calls db.CreateSpatialIndex with the
given name and pattern and discards its error (the Go function returns
void).  buntdb leaves the state unchanged when the handle is closed or an
index with that name already exists. -/
def createSpatialIndex (db : DbState) (name pattern : String) : DbState :=
  if db.closed then db
  else if (lookupIdx db.idxs name).isSome then db
  else { db with idxs := db.idxs ++ [(name, pattern)] }

/-- CreateGalaxy from the shim: db.Update setting key to value.  The error
returned by tx.Set is dropped inside the closure, the closure returns nil,
and the error returned by db.Update is dropped as well — the Go function
returns void, so the caller never sees an error and on failure the state is
simply left unchanged. -/
def createGalaxy (db : DbState) (k v : String) : DbState :=
  match dbUpdate db (fun its => setItem its k v) with
  | .ok db2 => db2
  | .error _ => db

/-- One entry yielded by the buntdb Tx.Nearby traversal of a spatial index:
the item's key, its value, and its distance from the query origin.  The
shim's iterator receives all three and ignores the distance. -/
structure NearbyEntry where
  key : String
  val : String
  dist : ℚ
deriving DecidableEq

/-- The accumulation loop of GetKNearestGalaxys: for every entry the
iterator appends key, a colon, the value and a comma to the result string
and returns true, so the traversal is never cut short. -/
def nearbyFold : List NearbyEntry → String → String
  | [], acc => acc
  | e :: rest, acc => nearbyFold rest (acc ++ (e.key ++ ":" ++ e.val ++ ","))

/-- Reference form of the output of GetKNearestGalaxys: every entry of the
traversal rendered as key:val, in traversal order. -/
def allEntriesString : List NearbyEntry → String
  | [] => ""
  | e :: rest => (e.key ++ ":" ++ e.val ++ ",") ++ allEntriesString rest

/-- GetKNearestGalaxys from the shim: db.View around tx.Nearby on the
hard-coded index name galaxy.  entries is the sequence the library's R-tree
traversal yields for that index and the given origin (ascending distance
per the library contract); it is a parameter because the R-tree itself is
third-party code.  On a closed handle, View fails without running the
closure and the empty result string is returned; when no index named
galaxy exists, Nearby returns ErrNotFound without invoking the iterator,
the closure drops that error, and again the empty string is returned.  The
function takes no bound on the number of results. -/
def getKNearestGalaxys (db : DbState) (entries : List NearbyEntry)
    (origin : String) : String :=
  if db.closed then ""
  else if (lookupIdx db.idxs "galaxy").isSome then nearbyFold entries ""
  else ""

/-- Number of comma characters in a string; each entry rendered by
GetKNearestGalaxys ends in exactly one comma, so for keys and values free
of commas this counts the returned results. -/
def commaCount (s : String) : Nat := s.toList.count ','

end PebbleVault

namespace VaultSpec

/-- Modelled from the spec: a 3D position, a 3-tuple of coordinates.  The
spec stores positions as 64-bit floats; the claims verified here only store
and compare positions, so rationals stand in for the coordinate type. -/
abbrev Pos := ℚ × ℚ × ℚ

/-- Modelled from the spec: a Record of the Record Store — payload blob,
optional 3D position, monotonically increasing version, dirty flag. -/
structure Record where
  payload : String
  position : Option Pos
  version : Nat
  dirty : Bool
deriving DecidableEq

/-- Modelled from the spec: one collection's Record Store, records keyed by
their unique key. -/
abbrev Store := List (String × Record)

/-- Modelled from the spec: the error kinds of the vault's operations. -/
inductive VErr
  | notFound
  | duplicateKey
  | conflict
  | notPersisted
  | failure
deriving DecidableEq

/-- Record stored at a key, if any. -/
def findRec : Store → String → Option Record
  | [], _ => none
  | (k0, r) :: rest, k => if k0 = k then some r else findRec rest k

/-- Version of the record stored at a key, if any. -/
def versionOf (s : Store) (k : String) : Option Nat :=
  (findRec s k).map Record.version

/-- Replace the record stored at a key, leaving the store unchanged when
the key is absent. -/
def replaceRec : Store → String → Record → Store
  | [], _, _ => []
  | (k0, r0) :: rest, k, r =>
    if k0 = k then (k, r) :: replaceRec rest k r
    else (k0, r0) :: replaceRec rest k r

/-- Remove every binding of a key from the store. -/
def removeKey : Store → String → Store
  | [], _ => []
  | (k0, r0) :: rest, k =>
    if k0 = k then removeKey rest k else (k0, r0) :: removeKey rest k

/-- Modelled from the spec: insert — fails with DuplicateKey if the key
already exists; otherwise stores the payload and position as a fresh dirty
record with version 1 and returns that version. -/
def insert (s : Store) (k p : String) (pos : Option Pos) :
    Except VErr (Store × Nat) :=
  match findRec s k with
  | some _ => .error .duplicateKey
  | none => .ok ((k, ⟨p, pos, 1, true⟩) :: s, 1)

/-- Modelled from the spec: read — the record at the key, NotFound if
absent. -/
def readRec (s : Store) (k : String) : Except VErr Record :=
  match findRec s k with
  | some r => .ok r
  | none => .error .notFound

/-- Modelled from the spec: update — full payload replace; increments the
version, sets dirty; NotFound if absent. -/
def update (s : Store) (k p : String) : Except VErr (Store × Nat) :=
  match findRec s k with
  | none => .error .notFound
  | some r =>
    .ok (replaceRec s k
      { r with payload := p, version := r.version + 1, dirty := true },
      r.version + 1)

/-- Modelled from the spec: patch — merges the given part of a payload into
the existing payload with a caller-supplied merge; increments the version,
sets dirty; NotFound if absent. -/
def patch (s : Store) (k part : String) (mg : String → String → String) :
    Except VErr (Store × Nat) :=
  match findRec s k with
  | none => .error .notFound
  | some r =>
    .ok (replaceRec s k
      { r with payload := mg r.payload part, version := r.version + 1,
               dirty := true },
      r.version + 1)

/-- Modelled from the spec: remove — deletes the record and returns the
removed record for rollback/audit; as a mutating operation it increments
the version carried by the returned record and marks it dirty; NotFound if
absent. -/
def removeRec (s : Store) (k : String) : Except VErr (Store × Record) :=
  match findRec s k with
  | none => .error .notFound
  | some r =>
    .ok (removeKey s k, { r with version := r.version + 1, dirty := true })

/-- Modelled from the spec: one collection's Spatial Index, an association
of record keys to positions. -/
abbrev SIdx := List (String × Pos)

/-- Position recorded for a key in the spatial index, if any. -/
def sidxFind : SIdx → String → Option Pos
  | [], _ => none
  | (k0, p0) :: rest, k => if k0 = k then some p0 else sidxFind rest k

/-- Modelled from the spec: spatial-index remove — drops the entry for the
key, a no-op when absent. -/
def sidxRemove : SIdx → String → SIdx
  | [], _ => []
  | (k0, p0) :: rest, k =>
    if k0 = k then sidxRemove rest k else (k0, p0) :: sidxRemove rest k

/-- Modelled from the spec: persist — reads the current record, calls the
adapter's put (represented by its success predicate); on success clears the
dirty flag, on failure leaves the record dirty and surfaces Failure. -/
def persist (s : Store) (putOk : String → String → Bool) (k : String) :
    Except VErr Store :=
  match findRec s k with
  | none => .error .notFound
  | some r =>
    if putOk k r.payload then .ok (replaceRec s k { r with dirty := false })
    else .error .failure

/-- Modelled from the spec: evict — refuses with NotPersisted while the
record is dirty; otherwise removes the record from the Record Store and its
entry from the Spatial Index. -/
def evict (s : Store) (ix : SIdx) (k : String) :
    Except VErr (Store × SIdx) :=
  match findRec s k with
  | none => .error .notFound
  | some r =>
    if r.dirty then .error .notPersisted
    else .ok (removeKey s k, sidxRemove ix k)

/-- Modelled from the spec: one staged operation of a transaction. -/
inductive StagedOp
  | ins (k p : String) (pos : Option Pos)
  | upd (k p : String)
  | rem (k : String)
deriving DecidableEq

/-- Modelled from the spec: a Transaction — the versions observed at begin
for every touched key (none when the key was absent) and the ordered list
of staged operations. -/
structure Txn where
  observed : List (String × Option Nat)
  ops : List StagedOp
deriving DecidableEq

/-- Optimistic conflict check of commit: every touched key must still carry
the version observed at begin. -/
def conflictFree (s : Store) (t : Txn) : Bool :=
  t.observed.all fun kv => decide (versionOf s kv.1 = kv.2)

/-- Apply one staged operation to the live store. -/
def applyOp (s : Store) : StagedOp → Except VErr Store
  | .ins k p pos => (insert s k p pos).map Prod.fst
  | .upd k p => (update s k p).map Prod.fst
  | .rem k => (removeRec s k).map Prod.fst

/-- Apply the staged operations in order, stopping at the first error. -/
def applyOps (s : Store) : List StagedOp → Except VErr Store
  | [] => .ok s
  | op :: rest =>
    match applyOp s op with
    | .ok s2 => applyOps s2 rest
    | .error e => .error e

/-- Modelled from the spec: commit — if any touched key changed since
begin, fails with Conflict and the transaction is discarded; otherwise
applies every staged mutation in one pass. -/
def commit (s : Store) (t : Txn) : Except VErr Store :=
  if conflictFree s t then applyOps s t.ops else .error .conflict

/-- The live store the caller observes after attempting a commit: the new
store on success, the untouched original on any failure. -/
def commitState (s : Store) (t : Txn) : Store :=
  match commit s t with
  | .ok s2 => s2
  | .error _ => s

end VaultSpec

namespace PebbleVault

theorem getItem_setItem_self (its : Items) (k v : String) :
    getItem (setItem its k v) k = some v := by
  induction its with
  | nil => simp [setItem, getItem]
  | cons h rest ih =>
    obtain ⟨k0, v0⟩ := h
    by_cases hk : k0 = k
    · simp [setItem, getItem, hk]
    · simp [setItem, getItem, hk, ih]

theorem setItem_override (its : Items) (k v1 v2 : String) :
    setItem (setItem its k v1) k v2 = setItem its k v2 := by
  induction its with
  | nil => simp [setItem]
  | cons h rest ih =>
    obtain ⟨k0, v0⟩ := h
    by_cases hk : k0 = k
    · simp [setItem, hk]
    · simp [setItem, hk, ih]

/-- Claim C1 counterexample: on a database holding value v1 at key a,
CreateGalaxy with the same key a silently replaces the stored value with
v2 (and, its return type being void, reports no DuplicateKey), refuting
the claim that an insert on an existing key fails and leaves the stored
value unchanged. -/
theorem C1_counterexample :
    getItem (createGalaxy ⟨false, [("a", "v1")], []⟩ "a" "v2").items "a"
      = some "v2" ∧
    getItem ([("a", "v1")] : Items) "a" = some "v1" := by
  constructor <;> rfl

/-- Claim C1 amended: CreateGalaxy on a key that already exists replaces
the stored value with the new one (last-write-wins upsert); no DuplicateKey
error exists — the operation returns void and the overwrite is silent. -/
theorem C1_insert_overwrites (db : DbState) (k v2 : String)
    (hopen : db.closed = false) (hexists : (getItem db.items k).isSome) :
    getItem (createGalaxy db k v2).items k = some v2 := by
  simp [createGalaxy, dbUpdate, hopen, getItem_setItem_self]

/-- Witness for C1_insert_overwrites at a concrete database. -/
theorem C1_insert_overwrites_witness :
    ((getItem ([("a", "v1")] : Items) "a").isSome = true) ∧
    getItem (createGalaxy ⟨false, [("a", "v1")], []⟩ "a" "v2").items "a"
      = some "v2" :=
  ⟨by decide, C1_insert_overwrites ⟨false, [("a", "v1")], []⟩ "a" "v2" rfl
    (by decide)⟩

/-- Claim C9: CreateGalaxy is an unconditional last-write-wins upsert —
after writing v1 then v2 at the same key, reading that key yields v2, and
the resulting state is the same as writing v2 directly; the operation has
no error channel at all (its return type is void), so writing to an
existing key never returns an error. -/
theorem C9_last_write_wins (db : DbState) (k v1 v2 : String)
    (hopen : db.closed = false) :
    getItem (createGalaxy (createGalaxy db k v1) k v2).items k = some v2 ∧
    createGalaxy (createGalaxy db k v1) k v2 = createGalaxy db k v2 := by
  constructor
  · simp [createGalaxy, dbUpdate, hopen, setItem_override, getItem_setItem_self]
  · simp [createGalaxy, dbUpdate, hopen, setItem_override]

/-- Witness for C9_last_write_wins at a concrete database. -/
theorem C9_last_write_wins_witness :
    ((⟨false, [], []⟩ : DbState).closed = false) ∧
    getItem (createGalaxy (createGalaxy ⟨false, [], []⟩ "g" "v1") "g" "v2").items "g"
      = some "v2" :=
  ⟨rfl, (C9_last_write_wins ⟨false, [], []⟩ "g" "v1" "v2" rfl).1⟩

/-- Claim C7: the shim's upsert (CreateGalaxy, which stores the value blob
the spatial index indexes) is idempotent and last-write-wins: writing k
twice is the same state as writing it once, and a second write replaces the
first entirely.  This holds for every state, including a closed handle
(where both sides leave the state untouched). -/
theorem C7_upsert_idempotent_lww (db : DbState) (k v1 v2 : String) :
    createGalaxy (createGalaxy db k v1) k v1 = createGalaxy db k v1 ∧
    createGalaxy (createGalaxy db k v1) k v2 = createGalaxy db k v2 := by
  by_cases hc : db.closed
  · constructor <;> simp [createGalaxy, dbUpdate, hc]
  · constructor <;>
      simp [createGalaxy, dbUpdate, hc, setItem_override]

end PebbleVault

namespace PebbleVault

theorem nearbyFold_eq (l : List NearbyEntry) (acc : String) :
    nearbyFold l acc = acc ++ allEntriesString l := by
  induction l generalizing acc with
  | nil => simp [nearbyFold, allEntriesString, String.append_empty]
  | cons e rest ih =>
    simp [nearbyFold, allEntriesString, ih, String.append_assoc]

theorem lookupIdx_append_of_ne (l : List (String × String))
    (n0 p0 n : String) (h : n0 ≠ n) :
    lookupIdx (l ++ [(n0, p0)]) n = lookupIdx l n := by
  induction l with
  | nil => simp [lookupIdx, h]
  | cons hd rest ih =>
    obtain ⟨a, b⟩ := hd
    by_cases hb : a = n <;> simp [lookupIdx, hb, ih]

/-- Claim C2 counterexample: with three points in the galaxy index (at
ascending distances 1, 2, 3 from the origin), GetKNearestGalaxys returns
all three results — there is no k parameter and no truncation — so for
k = 2 the output exceeds k, refuting "at most k results". -/
theorem C2_counterexample :
    getKNearestGalaxys
        ⟨false, [("g1", "p1"), ("g2", "p2"), ("g3", "p3")],
          [("galaxy", "g*")]⟩
        [⟨"g1", "p1", 1⟩, ⟨"g2", "p2", 2⟩, ⟨"g3", "p3", 3⟩] "[0 0 0]"
      = "g1:p1,g2:p2,g3:p3," ∧
    commaCount
        (getKNearestGalaxys
          ⟨false, [("g1", "p1"), ("g2", "p2"), ("g3", "p3")],
            [("galaxy", "g*")]⟩
          [⟨"g1", "p1", 1⟩, ⟨"g2", "p2", 2⟩, ⟨"g3", "p3", 3⟩] "[0 0 0]")
      = 3 ∧
    ¬ (commaCount
        (getKNearestGalaxys
          ⟨false, [("g1", "p1"), ("g2", "p2"), ("g3", "p3")],
            [("galaxy", "g*")]⟩
          [⟨"g1", "p1", 1⟩, ⟨"g2", "p2", 2⟩, ⟨"g3", "p3", 3⟩] "[0 0 0]")
        ≤ 2) := by
  refine ⟨by rfl, by decide, by decide⟩

/-- Claim C2 amended: GetKNearestGalaxys takes no result bound; its
iterator always continues, so on an open database whose galaxy index
exists it returns one key:val entry for every entry the library traversal
yields, concatenated in traversal order (ascending distance per the
library's contract); no key-order tie-break is implemented. -/
theorem C2_returns_all_entries (db : DbState) (entries : List NearbyEntry)
    (origin : String) (hopen : db.closed = false)
    (hidx : (lookupIdx db.idxs "galaxy").isSome) :
    getKNearestGalaxys db entries origin = allEntriesString entries := by
  simp [getKNearestGalaxys, hopen, hidx, nearbyFold_eq,
    String.empty_append]

/-- Witness for C2_returns_all_entries at a concrete database. -/
theorem C2_returns_all_entries_witness :
    ((lookupIdx ([("galaxy", "g*")] : List (String × String)) "galaxy").isSome
      = true) ∧
    getKNearestGalaxys ⟨false, [("g1", "p1")], [("galaxy", "g*")]⟩
        [⟨"g1", "p1", 1⟩] "[0 0 0]"
      = allEntriesString [⟨"g1", "p1", 1⟩] :=
  ⟨by decide,
    C2_returns_all_entries ⟨false, [("g1", "p1")], [("galaxy", "g*")]⟩
      [⟨"g1", "p1", 1⟩] "[0 0 0]" rfl (by decide)⟩

/-- Claim C3 counterexample: on a closed database handle the inner
db.Update fails with ErrDatabaseClosed, yet CreateGalaxy returns normally
(it is void and drops the error, leaving the state untouched), and
GetKNearestGalaxys likewise returns the empty string instead of an error —
refuting the claim that an operation returning normally encountered no
error. -/
theorem C3_counterexample :
    dbUpdate ⟨true, [("a", "v1")], [("galaxy", "g*")]⟩
        (fun its => setItem its "k" "v")
      = Except.error DbErr.databaseClosed ∧
    createGalaxy ⟨true, [("a", "v1")], [("galaxy", "g*")]⟩ "k" "v"
      = ⟨true, [("a", "v1")], [("galaxy", "g*")]⟩ ∧
    getKNearestGalaxys ⟨true, [("a", "v1")], [("galaxy", "g*")]⟩
        [⟨"a", "v1", 1⟩] "[0 0 0]" = "" := by
  refine ⟨rfl, rfl, rfl⟩

/-- Claim C3 amended: the shim's exported operations have no error channel
and discard internal errors — on a closed handle the update inside
CreateGalaxy fails with ErrDatabaseClosed, but CreateGalaxy itself returns
normally with the state unchanged (and GetKNearestGalaxys returns a
string, empty on failure, never an error). -/
theorem C3_errors_discarded (db : DbState) (k v : String)
    (hclosed : db.closed = true) :
    dbUpdate db (fun its => setItem its k v)
      = Except.error DbErr.databaseClosed ∧
    createGalaxy db k v = db := by
  constructor
  · simp [dbUpdate, hclosed]
  · simp [createGalaxy, dbUpdate, hclosed]

/-- Witness for C3_errors_discarded at a concrete closed database. -/
theorem C3_errors_discarded_witness :
    ((⟨true, [("a", "v1")], []⟩ : DbState).closed = true) ∧
    createGalaxy ⟨true, [("a", "v1")], []⟩ "k" "v"
      = ⟨true, [("a", "v1")], []⟩ :=
  ⟨rfl, (C3_errors_discarded ⟨true, [("a", "v1")], []⟩ "k" "v" rfl).2⟩

/-- Claim C10: GetKNearestGalaxys queries the hard-coded index name
galaxy, so creating a spatial index under any other name does not affect
it, and on any database without a galaxy index (closed or open) it returns
the empty string rather than an error. -/
theorem C10_galaxy_hardcoded (db : DbState)
    (name pattern origin : String) (entries : List NearbyEntry)
    (hname : name ≠ "galaxy") (hnog : lookupIdx db.idxs "galaxy" = none) :
    getKNearestGalaxys (createSpatialIndex db name pattern) entries origin
      = "" ∧
    getKNearestGalaxys db entries origin = "" := by
  have hstill :
      lookupIdx (createSpatialIndex db name pattern).idxs "galaxy" = none := by
    unfold createSpatialIndex
    by_cases hc : db.closed
    · simp [hc, hnog]
    · by_cases he : (lookupIdx db.idxs name).isSome
      · simp [hc, he, hnog]
      · simp [hc, he, lookupIdx_append_of_ne db.idxs name pattern "galaxy" hname,
          hnog]
  constructor
  · unfold getKNearestGalaxys
    by_cases hc2 : (createSpatialIndex db name pattern).closed
    · simp [hc2]
    · simp [hc2, hstill]
  · unfold getKNearestGalaxys
    by_cases hc : db.closed
    · simp [hc]
    · simp [hc, hnog]

/-- Witness for C10_galaxy_hardcoded: an open database with no indexes, a
fleet index created, still yields the empty string. -/
theorem C10_galaxy_hardcoded_witness :
    (("fleet" : String) ≠ "galaxy") ∧
    getKNearestGalaxys
        (createSpatialIndex ⟨false, [("f1", "p1")], []⟩ "fleet" "f*")
        [⟨"f1", "p1", 1⟩] "[0 0 0]"
      = "" :=
  ⟨by decide,
    (C10_galaxy_hardcoded ⟨false, [("f1", "p1")], []⟩ "fleet" "f*" "[0 0 0]"
      [⟨"f1", "p1", 1⟩] (by decide) rfl).1⟩

end PebbleVault

namespace VaultSpec

theorem findRec_replaceRec_self (s : Store) (k : String) (r : Record) :
    findRec (replaceRec s k r) k = (findRec s k).map (fun _ => r) := by
  induction s with
  | nil => simp [replaceRec, findRec]
  | cons h rest ih =>
    obtain ⟨k0, r0⟩ := h
    by_cases hk : k0 = k
    · simp [replaceRec, findRec, hk]
    · simp [replaceRec, findRec, hk, ih]

theorem findRec_replaceRec_ne (s : Store) (k k2 : String) (r : Record)
    (h : k2 ≠ k) : findRec (replaceRec s k r) k2 = findRec s k2 := by
  induction s with
  | nil => simp [replaceRec, findRec]
  | cons hd rest ih =>
    obtain ⟨k0, r0⟩ := hd
    by_cases hk : k0 = k
    · subst hk
      simp [replaceRec, findRec, (Ne.symm h), ih]
    · by_cases hk2 : k0 = k2 <;> simp [replaceRec, findRec, hk, hk2, h, ih]

theorem findRec_removeKey_self (s : Store) (k : String) :
    findRec (removeKey s k) k = none := by
  induction s with
  | nil => simp [removeKey, findRec]
  | cons hd rest ih =>
    obtain ⟨k0, r0⟩ := hd
    by_cases hk : k0 = k
    · simp [removeKey, hk, ih]
    · simp [removeKey, findRec, hk, ih]

theorem findRec_removeKey_ne (s : Store) (k k2 : String) (h : k2 ≠ k) :
    findRec (removeKey s k) k2 = findRec s k2 := by
  induction s with
  | nil => simp [removeKey, findRec]
  | cons hd rest ih =>
    obtain ⟨k0, r0⟩ := hd
    by_cases hk : k0 = k
    · subst hk
      simp [removeKey, findRec, (Ne.symm h), ih]
    · by_cases hk2 : k0 = k2 <;> simp [removeKey, findRec, hk, hk2, h, ih]

theorem sidxFind_sidxRemove_self (ix : SIdx) (k : String) :
    sidxFind (sidxRemove ix k) k = none := by
  induction ix with
  | nil => simp [sidxRemove, sidxFind]
  | cons hd rest ih =>
    obtain ⟨k0, p0⟩ := hd
    by_cases hk : k0 = k
    · simp [sidxRemove, hk, ih]
    · simp [sidxRemove, sidxFind, hk, ih]

/-- Claim C4: in the spec-modelled Record Store, inserting a fresh key and
then reading it back returns exactly the inserted payload and position, as
a dirty record with version 1, and insert reports version 1. -/
theorem C4_insert_read_roundtrip (s s2 : Store) (k p : String)
    (pos : Option Pos) (v : Nat) (habs : findRec s k = none)
    (hins : insert s k p pos = .ok (s2, v)) :
    readRec s2 k = .ok ⟨p, pos, 1, true⟩ ∧ v = 1 := by
  simp [insert, habs] at hins
  obtain ⟨hs2, hv⟩ := hins
  subst hs2
  subst hv
  simp [readRec, findRec]

/-- Witness for C4_insert_read_roundtrip at a concrete store. -/
theorem C4_insert_read_roundtrip_witness :
    (findRec [] "ship-1" = none) ∧
    readRec [("ship-1", ⟨"hull", some (1, 2, 3), 1, true⟩)] "ship-1"
      = .ok ⟨"hull", some (1, 2, 3), 1, true⟩ :=
  ⟨rfl,
    (C4_insert_read_roundtrip []
      [("ship-1", ⟨"hull", some (1, 2, 3), 1, true⟩)] "ship-1" "hull"
      (some (1, 2, 3)) 1 rfl rfl).1⟩

/-- Claim C6: in the spec-modelled Record Store, every successful mutation
of an existing key strictly increases its version — update and patch leave
the key carrying a strictly larger version, remove returns the removed
record carrying a strictly larger version — and a successful insert of an
absent key creates it at version 1; hence a reader before and a reader
after a successful mutation of a key observe strictly increasing
versions. -/
theorem C6_version_monotone (s su sp sr si : Store) (k p q k0 p0 : String)
    (mg : String → String → String) (pos0 : Option Pos) (r rr : Record)
    (vu vp vi : Nat)
    (h : findRec s k = some r)
    (hu : update s k p = .ok (su, vu))
    (hp : patch s k q mg = .ok (sp, vp))
    (hr : removeRec s k = .ok (sr, rr))
    (h0 : findRec s k0 = none)
    (hi : insert s k0 p0 pos0 = .ok (si, vi)) :
    r.version < vu ∧ versionOf su k = some vu ∧
    r.version < vp ∧ versionOf sp k = some vp ∧
    r.version < rr.version ∧ versionOf sr k = none ∧
    vi = 1 ∧ versionOf si k0 = some 1 := by
  simp [update, h] at hu
  simp [patch, h] at hp
  simp [removeRec, h] at hr
  simp [insert, h0] at hi
  obtain ⟨hsu, hvu⟩ := hu
  obtain ⟨hsp, hvp⟩ := hp
  obtain ⟨hsr, hrr⟩ := hr
  obtain ⟨hsi, hvi⟩ := hi
  subst hsu; subst hvu; subst hsp; subst hvp; subst hsr; subst hrr
  subst hsi; subst hvi
  refine ⟨Nat.lt_succ_self _, ?_, Nat.lt_succ_self _, ?_,
    Nat.lt_succ_self _, ?_, rfl, ?_⟩
  · simp [versionOf, findRec_replaceRec_self, h]
  · simp [versionOf, findRec_replaceRec_self, h]
  · simp [versionOf, findRec_removeKey_self]
  · simp [versionOf, findRec]

/-- Witness for C6_version_monotone at a concrete store. -/
theorem C6_version_monotone_witness :
    (findRec [("c", ⟨"old", none, 5, false⟩)] "c"
      = some ⟨"old", none, 5, false⟩) ∧
    ((5 : Nat) < 6 ∧
      versionOf (replaceRec [("c", ⟨"old", none, 5, false⟩)] "c"
          ⟨"new", none, 6, true⟩) "c" = some 6 ∧
      (5 : Nat) < 6 ∧
      versionOf (replaceRec [("c", ⟨"old", none, 5, false⟩)] "c"
          ⟨"old-part-q", none, 6, true⟩) "c" = some 6 ∧
      (5 : Nat) < (6 : Nat) ∧
      versionOf (removeKey [("c", ⟨"old", none, 5, false⟩)] "c") "c" = none ∧
      (1 : Nat) = 1 ∧
      versionOf
          (("d", (⟨"pay", none, 1, true⟩ : Record)) ::
            [("c", ⟨"old", none, 5, false⟩)]) "d" = some 1) :=
  ⟨rfl,
    C6_version_monotone [("c", ⟨"old", none, 5, false⟩)]
      (replaceRec [("c", ⟨"old", none, 5, false⟩)] "c" ⟨"new", none, 6, true⟩)
      (replaceRec [("c", ⟨"old", none, 5, false⟩)] "c"
        ⟨"old-part-q", none, 6, true⟩)
      (removeKey [("c", ⟨"old", none, 5, false⟩)] "c")
      (("d", (⟨"pay", none, 1, true⟩ : Record)) ::
        [("c", ⟨"old", none, 5, false⟩)])
      "c" "new" "part-q" "d" "pay" (fun a b => a ++ "-" ++ b) none
      ⟨"old", none, 5, false⟩ ⟨"old", none, 6, true⟩ 6 6 1
      rfl rfl rfl rfl rfl rfl⟩

/-- Claim C8: in the spec-modelled vault, evict on a dirty record fails
with NotPersisted (no state change is produced), while after a successful
persist (which clears the dirty flag) evict succeeds and removes both the
record from the Record Store and its entry from the Spatial Index. -/
theorem C8_evict_guard (s : Store) (ix : SIdx) (k : String) (r : Record)
    (putOk : String → String → Bool)
    (h : findRec s k = some r) (hput : putOk k r.payload = true) :
    (r.dirty = true → evict s ix k = .error .notPersisted) ∧
    persist s putOk k = .ok (replaceRec s k { r with dirty := false }) ∧
    evict (replaceRec s k { r with dirty := false }) ix k
      = .ok (removeKey (replaceRec s k { r with dirty := false }) k,
             sidxRemove ix k) ∧
    findRec (removeKey (replaceRec s k { r with dirty := false }) k) k
      = none ∧
    sidxFind (sidxRemove ix k) k = none := by
  have hafter :
      findRec (replaceRec s k { r with dirty := false }) k
        = some { r with dirty := false } := by
    simp [findRec_replaceRec_self, h]
  refine ⟨fun hd => ?_, ?_, ?_, ?_, ?_⟩
  · simp [evict, h, hd]
  · simp [persist, h, hput]
  · simp [evict, hafter]
  · simp [findRec_removeKey_self]
  · simp [sidxFind_sidxRemove_self]

/-- Witness for C8_evict_guard at a concrete store and index. -/
theorem C8_evict_guard_witness :
    (findRec [("e", ⟨"cargo", some (0, 0, 0), 3, true⟩)] "e"
      = some ⟨"cargo", some (0, 0, 0), 3, true⟩) ∧
    ((⟨"cargo", some (0, 0, 0), 3, true⟩ : Record).dirty = true →
      evict [("e", ⟨"cargo", some (0, 0, 0), 3, true⟩)] [("e", (0, 0, 0))] "e"
        = .error .notPersisted) :=
  ⟨rfl,
    (C8_evict_guard [("e", ⟨"cargo", some (0, 0, 0), 3, true⟩)]
      [("e", (0, 0, 0))] "e" ⟨"cargo", some (0, 0, 0), 3, true⟩
      (fun _ _ => true) rfl rfl).1⟩

end VaultSpec

namespace VaultSpec

/-- Claim C5: in the spec-modelled Transaction Coordinator, a commit of a
transaction staging insert(A), remove(B), update(C) is all-or-nothing: if
the optimistic version check fails, commit returns Conflict and the live
store the caller observes is exactly the original (none of A, B, C
changed); if it succeeds, the observed store reflects all three staged
operations at once — A present as a fresh version-1 record, B absent, and
C carrying the new payload with its version incremented. -/
theorem C5_commit_atomic (s : Store) (t : Txn)
    (obs : List (String × Option Nat)) (kA kB kC pA pC : String)
    (posA : Option Pos) (rB rC : Record)
    (ht : t = ⟨obs, [.ins kA pA posA, .rem kB, .upd kC pC]⟩)
    (hAB : kA ≠ kB) (hAC : kA ≠ kC) (hBC : kB ≠ kC)
    (hA : findRec s kA = none) (hB : findRec s kB = some rB)
    (hC : findRec s kC = some rC) :
    (conflictFree s t = false →
      commit s t = .error .conflict ∧ commitState s t = s) ∧
    (conflictFree s t = true →
      commit s t = .ok (commitState s t) ∧
      findRec (commitState s t) kA = some ⟨pA, posA, 1, true⟩ ∧
      findRec (commitState s t) kB = none ∧
      findRec (commitState s t) kC
        = some { rC with payload := pC, version := rC.version + 1, dirty := true }) := by
  subst ht
  refine ⟨fun hcf => ⟨by simp [commit, hcf],
    by simp [commitState, commit, hcf]⟩, fun hcf => ?_⟩
  have h1 : applyOp s (StagedOp.ins kA pA posA)
      = .ok ((kA, (⟨pA, posA, 1, true⟩ : Record)) :: s) := by
    simp [applyOp, insert, hA, Except.map]
  have hB1 : findRec ((kA, (⟨pA, posA, 1, true⟩ : Record)) :: s) kB
      = some rB := by
    simp [findRec, hAB, hB]
  have h2 : applyOp ((kA, (⟨pA, posA, 1, true⟩ : Record)) :: s)
        (StagedOp.rem kB)
      = .ok (removeKey ((kA, (⟨pA, posA, 1, true⟩ : Record)) :: s) kB) := by
    simp [applyOp, removeRec, hB1, Except.map]
  have hC2 : findRec (removeKey ((kA, (⟨pA, posA, 1, true⟩ : Record)) :: s)
        kB) kC = some rC := by
    rw [findRec_removeKey_ne _ kB kC (Ne.symm hBC)]
    simp [findRec, hAC, hC]
  have h3 : applyOp (removeKey ((kA, (⟨pA, posA, 1, true⟩ : Record)) :: s)
        kB) (StagedOp.upd kC pC)
      = .ok (replaceRec
          (removeKey ((kA, (⟨pA, posA, 1, true⟩ : Record)) :: s) kB) kC
          { rC with payload := pC, version := rC.version + 1, dirty := true }) := by
    simp [applyOp, update, hC2, Except.map]
  have hcommit : commit s
        ⟨obs, [StagedOp.ins kA pA posA, StagedOp.rem kB,
          StagedOp.upd kC pC]⟩
      = .ok (replaceRec
          (removeKey ((kA, (⟨pA, posA, 1, true⟩ : Record)) :: s) kB) kC
          { rC with payload := pC, version := rC.version + 1, dirty := true }) := by
    simp [commit, hcf, applyOps, h1, h2, h3]
  have hcs : commitState s
        ⟨obs, [StagedOp.ins kA pA posA, StagedOp.rem kB,
          StagedOp.upd kC pC]⟩
      = replaceRec
          (removeKey ((kA, (⟨pA, posA, 1, true⟩ : Record)) :: s) kB) kC
          { rC with payload := pC, version := rC.version + 1, dirty := true } := by
    simp [commitState, hcommit]
  rw [hcs]
  refine ⟨hcommit, ?_, ?_, ?_⟩
  · rw [findRec_replaceRec_ne _ kC kA _ hAC,
      findRec_removeKey_ne _ kB kA hAB]
    simp [findRec]
  · rw [findRec_replaceRec_ne _ kC kB _ hBC]
    simp [findRec_removeKey_self]
  · simp [findRec_replaceRec_self, hC2]

/-- Witness for C5_commit_atomic: a concrete conflict-free transaction
whose commit inserts a, removes b and updates c in one pass. -/
theorem C5_commit_atomic_witness :
    (conflictFree
        [("b", ⟨"pb", none, 2, false⟩), ("c", ⟨"pc", none, 7, false⟩)]
        ⟨[("b", some 2)],
          [StagedOp.ins "a" "pa" none, StagedOp.rem "b",
            StagedOp.upd "c" "pc2"]⟩ = true) ∧
    (conflictFree
        [("b", ⟨"pb", none, 2, false⟩), ("c", ⟨"pc", none, 7, false⟩)]
        ⟨[("b", some 2)],
          [StagedOp.ins "a" "pa" none, StagedOp.rem "b",
            StagedOp.upd "c" "pc2"]⟩ = true →
      commit
          [("b", ⟨"pb", none, 2, false⟩), ("c", ⟨"pc", none, 7, false⟩)]
          ⟨[("b", some 2)],
            [StagedOp.ins "a" "pa" none, StagedOp.rem "b",
              StagedOp.upd "c" "pc2"]⟩
        = .ok (commitState
            [("b", ⟨"pb", none, 2, false⟩), ("c", ⟨"pc", none, 7, false⟩)]
            ⟨[("b", some 2)],
              [StagedOp.ins "a" "pa" none, StagedOp.rem "b",
                StagedOp.upd "c" "pc2"]⟩) ∧
      findRec (commitState
          [("b", ⟨"pb", none, 2, false⟩), ("c", ⟨"pc", none, 7, false⟩)]
          ⟨[("b", some 2)],
            [StagedOp.ins "a" "pa" none, StagedOp.rem "b",
              StagedOp.upd "c" "pc2"]⟩) "a" = some ⟨"pa", none, 1, true⟩ ∧
      findRec (commitState
          [("b", ⟨"pb", none, 2, false⟩), ("c", ⟨"pc", none, 7, false⟩)]
          ⟨[("b", some 2)],
            [StagedOp.ins "a" "pa" none, StagedOp.rem "b",
              StagedOp.upd "c" "pc2"]⟩) "b" = none ∧
      findRec (commitState
          [("b", ⟨"pb", none, 2, false⟩), ("c", ⟨"pc", none, 7, false⟩)]
          ⟨[("b", some 2)],
            [StagedOp.ins "a" "pa" none, StagedOp.rem "b",
              StagedOp.upd "c" "pc2"]⟩) "c" = some ⟨"pc2", none, 8, true⟩) :=
  ⟨by decide,
    (C5_commit_atomic
      [("b", ⟨"pb", none, 2, false⟩), ("c", ⟨"pc", none, 7, false⟩)]
      ⟨[("b", some 2)],
        [StagedOp.ins "a" "pa" none, StagedOp.rem "b",
          StagedOp.upd "c" "pc2"]⟩
      [("b", some 2)] "a" "b" "c" "pa" "pc2" none
      ⟨"pb", none, 2, false⟩ ⟨"pc", none, 7, false⟩
      rfl (by decide) (by decide) (by decide) rfl rfl rfl).2⟩

end VaultSpec
